import Mathlib

set_option maxRecDepth 40000

/-!
Shallow embedding of `src/xml/hivexml.c` (hivexml: Windows Registry hive to
forensic XML converter).

The XML writer collaborator (libxml2's xmlTextWriter) is modelled as a trace
of events (`Xml`): elements opened/closed, attributes written either as raw
bytes, as base64-encoded bytes, or as fixed literal/formatted strings, and
text nodes.  C strings are modelled as `List Nat` (byte values); reading a
C string stops at the first NUL (`cstr`).

The hive-parsing collaborator (libhivex) is not part of the source; the
values it supplies to each callback (node/value handles, struct lengths,
data-cell offset/length, timestamps) are modelled as fields of the
`Hive`/`HiveNode`/`HiveValue` records, constrained only where the spec
constrains them (see `specDataCell`).

`abort()` is modelled by `Option`: a callback that aborts returns `none`
and emits nothing.
-/

namespace Hivexml

/-- One event sent to the XML writer collaborator.  `attrRaw` is
`xmlTextWriterWriteAttribute` with byte content, `attrB64` is a
`StartAttribute`/`WriteBase64`/`EndAttribute` sequence, `attrLit` is an
attribute whose value is a fixed or numerically formatted string. -/
inductive Xml where
  | start (name : String)
  | endE
  | attrRaw (name : String) (bytes : List Nat)
  | attrB64 (name : String) (bytes : List Nat)
  | attrLit (name : String) (val : String)
  | text (s : String)
  deriving DecidableEq

/-- The bytes of a NUL-terminated C string: everything before the first NUL. -/
def cstr (data : List Nat) : List Nat := data.takeWhile (fun b => b ≠ 0)

/-- C-locale `isprint`: the printable ASCII range 0x20..0x7e.  (`hivexml`
calls `isprint` on `char` values; bytes ≥ 0x80 appear as negative `char`s
and are not printable.) -/
def isprintB (b : Nat) : Bool := 32 ≤ b && b ≤ 126

/-- The scanning loop of `encoding_recommendation`: `is_printable` starts 0,
is overwritten with `isprint(data[i])` at each index, and the loop breaks at
the first non-printable byte. -/
def encRecLoop : List Nat → Bool → Bool
  | [], isp => isp
  | b :: rest, _ => if isprintB b then encRecLoop rest true else false

/-- `encoding_recommendation` (hivexml.c:242): scan the NUL-terminated data;
return "none" if the final value of `is_printable` is set, "base64"
otherwise.  For empty data the loop never runs and `is_printable` keeps its
initial value 0, so the empty string is classified "base64". -/
def encoding_recommendation (data : List Nat) : String :=
  if encRecLoop (cstr data) false then "none" else "base64"

/-- `safe_print_string_attribute` (hivexml.c:262): write `attr_name` raw when
the recommendation is "none", otherwise write `attr_encoding="base64"`
followed by `attr_name` with base64-encoded content.  Both writers consume
the C string, i.e. the bytes before the first NUL.  Returns the event list
and the C return code. -/
def safe_print_string_attribute (attr_name attr_encoding : String) (attr_data : List Nat) :
    List Xml × Int :=
  if encoding_recommendation attr_data = "none" then
    ([Xml.attrRaw attr_name (cstr attr_data)], 0)
  else if encoding_recommendation attr_data = "base64" then
    ([Xml.attrLit attr_encoding "base64", Xml.attrB64 attr_name (cstr attr_data)], 0)
  else ([], -1)

/-- The hive handle: what the collaborator reports for `hivex_root` and
`hivex_last_modified`. -/
structure Hive where
  root : Nat
  lastModified : Int

/-- A node as seen by one `node_start`/`node_end` pair: its handle (also its
file offset), its name C string, the collaborator-reported
`hivex_node_timestamp` and `hivex_node_struct_length`. -/
structure HiveNode where
  handle : Nat
  name : List Nat
  timestamp : Int
  structLength : Nat

/-- A value as seen by one value callback: its handle (also its file
offset), the collaborator-reported `hivex_value_struct_length` and
`hivex_value_data_cell_offset` results, its key C string, and the payload
length/bytes passed to the callback. -/
structure HiveValue where
  handle : Nat
  structLength : Nat
  dataCellOffset : Nat
  dataCellLength : Nat
  key : List Nat
  len : Nat
  payload : List Nat

/-- Modelled from the spec: `hivex_value_data_cell_offset` is collaborator
code not under `src/`.  Per the spec's data model, a value's out-of-line
data cell is "present only when payload length > 4 bytes" (the inline
storage threshold inherited from the on-disk format), and when present the
reported cell length covers at least the payload, so the cell length
exceeds the 4-byte threshold exactly when the payload length does. -/
def specDataCell (v : HiveValue) : Prop := 4 < v.dataCellLength ↔ 4 < v.len

end Hivexml

namespace Hivexml

/-! ### Timestamp conversion (`filetime_to_8601`, hivexml.c:185)

`gmtime`/`strftime` are libc collaborators; the spec says: convert ticks to
Unix epoch seconds via `ticks / 10,000,000 − 11,644,473,600`, then format
that instant as UTC.  The UTC calendar conversion is modelled with the
proleptic Gregorian calendar, decomposed into 400-year eras of 146097 days
(era year 0 starting on the 1st of March), scanning years and then months
inside an era. -/

/-- Proleptic Gregorian leap-year test. -/
def isLeapY (y : Nat) : Bool := y % 4 == 0 && (y % 100 != 0 || y % 400 == 0)

/-- Length of shifted (March-to-February) year `s` of an era: it contains
the February of calendar year `s + 1` of the era. -/
def slen (s : Nat) : Nat := if isLeapY (s + 1) then 366 else 365

/-- Days of the era before shifted year `s`. -/
def dstartY : Nat → Nat
  | 0 => 0
  | s + 1 => dstartY s + slen s

/-- Scan shifted years from `s`, consuming `d` days; returns the shifted
year reached and the day offset inside it.  Fuel-indexed structural
recursion; 400 units of fuel cover a whole era. -/
def findYearAux : Nat → Nat → Nat → Nat × Nat
  | 0, s, d => (s, d)
  | fuel + 1, s, d => if d < slen s then (s, d) else findYearAux fuel (s + 1) (d - slen s)

/-- Locate the shifted year of day `d` of an era. -/
def findYear (d : Nat) : Nat × Nat := findYearAux 400 0 d

/-- Lengths of the shifted months March..January; February is the final
catch-all month. -/
def smlen (mp : Nat) : Nat := [31, 30, 31, 30, 31, 31, 30, 31, 30, 31, 31].getD mp 0

/-- Days of the shifted year before shifted month `mp`. -/
def dstartM : Nat → Nat
  | 0 => 0
  | k + 1 => dstartM k + smlen k

/-- Scan shifted months from `mp`, consuming `d` days. -/
def findMonthAux : Nat → Nat → Nat → Nat × Nat
  | 0, mp, d => (mp, d)
  | fuel + 1, mp, d => if d < smlen mp then (mp, d) else findMonthAux fuel (mp + 1) (d - smlen mp)

/-- Locate the shifted month of day `d` of a shifted year (`mp = 0` is
March, ..., `mp = 11` is February). -/
def findMonth (d : Nat) : Nat × Nat := findMonthAux 11 0 d

/-- Gregorian date (year, month, day-of-month) of day `z` counted from
1970-01-01. -/
def civilFromDays (z : Int) : Int × Nat × Nat :=
  let era : Int := (z + 719468) / 146097
  let doe : Nat := ((z + 719468) % 146097).toNat
  let p := findYear doe
  let q := findMonth p.2
  let m : Nat := if q.1 < 10 then q.1 + 3 else q.1 - 9
  let y : Int := era * 400 + p.1 + (if 10 ≤ q.1 then 1 else 0)
  (y, m, q.2 + 1)

/-- The fields of `struct tm` used by the `%FT%TZ` format. -/
structure Tm where
  year : Int
  mon : Nat
  mday : Nat
  hour : Nat
  minute : Nat
  second : Nat
  deriving DecidableEq

/-- Model of `gmtime`: split seconds-since-epoch into a day number and
seconds-of-day (flooring, as glibc does for negative times), then convert
the day number to a Gregorian date. -/
def gmtimeModel (secs : Int) : Tm :=
  let days : Int := secs / 86400
  let sod : Nat := (secs % 86400).toNat
  let c := civilFromDays days
  ⟨c.1, c.2.1, c.2.2, sod / 3600, sod % 3600 / 60, sod % 60⟩

/-- Little-endian decimal digits of `n` (fuel-indexed; 24 digits cover any
value reachable from a 64-bit tick count). -/
def natDigitsRev : Nat → Nat → List Nat
  | 0, _ => []
  | fuel + 1, n => if n = 0 then [] else n % 10 :: natDigitsRev fuel (n / 10)

/-- Decimal digit characters of `n`, most significant first (empty for 0). -/
def natDigits (n : Nat) : List Char := ((natDigitsRev 24 n).reverse).map Nat.digitChar

/-- `n` printed in decimal, zero-padded on the left to at least `w` digits
(as glibc's `%Y` pads to 4). -/
def padDigits (w n : Nat) : List Char :=
  List.replicate (w - (natDigits n).length) '0' ++ natDigits n

/-- The `%Y` field: the full year, sign included, zero-padded to at least
four digits. -/
def yearChars (y : Int) : List Char :=
  if y < 0 then '-' :: padDigits 4 y.natAbs else padDigits 4 y.toNat

/-- A two-digit zero-padded field (`%m`, `%d`, `%H`, `%M`, `%S`). -/
def pad2 (n : Nat) : List Char := [Nat.digitChar (n / 10 % 10), Nat.digitChar (n % 10)]

/-- Model of `strftime` with format `"%FT%TZ"`. -/
def strftime8601 (tm : Tm) : String :=
  String.mk (yearChars tm.year ++ '-' :: pad2 tm.mon ++ '-' :: pad2 tm.mday ++
    'T' :: pad2 tm.hour ++ ':' :: pad2 tm.minute ++ ':' :: pad2 tm.second ++ ['Z'])

/-- `filetime_to_8601` (hivexml.c:185): `NULL` (here `none`) on a 0 input;
otherwise convert ticks to Unix seconds with C (truncating) division and
format.  For any tick count representable in 64 bits the resulting year
fits `gmtime`'s range, so conversion never fails. -/
def filetime_to_8601 (windows_ticks : Int) : Option String :=
  if windows_ticks = 0 then none
  else some (strftime8601 (gmtimeModel (Int.tdiv windows_ticks 10000000 - 11644473600)))

/-! ### Reference reading of a strict `YYYY-MM-DDTHH:MM:SSZ` string

Following the spec's words ("matches `^\d{4}-\d{2}-\d{2}T\d{2}:\d{2}:\d{2}Z$`
and round-trips to the same Unix-epoch second as the reference formula"):
`parse8601` accepts exactly the strict 20-character form and returns the
Unix-epoch second the string denotes, via the inverse Gregorian
conversion. -/

/-- Numeric value of a decimal digit character. -/
def digitVal (c : Char) : Nat := c.toNat - 48

/-- Day number (from 1970-01-01) of a Gregorian date: the inverse of
`civilFromDays`. -/
def daysFromCivil (y : Int) (m d : Nat) : Int :=
  let yAdj : Int := if m ≤ 2 then y - 1 else y
  let mp : Nat := if 3 ≤ m then m - 3 else m + 9
  let era : Int := yAdj / 400
  let yoe : Nat := (yAdj - era * 400).toNat
  era * 146097 + ((dstartY yoe + dstartM mp + (d - 1) : Nat) : Int) - 719468

/-- Unix-epoch second denoted by broken-down UTC fields. -/
def instantOfFields (y : Int) (m d h mi s : Nat) : Int :=
  86400 * daysFromCivil y m d + ((3600 * h + 60 * mi + s : Nat) : Int)

/-- Accept exactly `\d{4}-\d{2}-\d{2}T\d{2}:\d{2}:\d{2}Z` and return the
denoted Unix-epoch second; reject any other string. -/
def parse8601 (str : String) : Option Int :=
  match str.data with
  | [y1, y2, y3, y4, a1, m1, m2, a2, d1, d2, a3, h1, h2, a4, i1, i2, a5, s1, s2, a6] =>
    if a1 = '-' ∧ a2 = '-' ∧ a3 = 'T' ∧ a4 = ':' ∧ a5 = ':' ∧ a6 = 'Z'
        ∧ y1.isDigit ∧ y2.isDigit ∧ y3.isDigit ∧ y4.isDigit
        ∧ m1.isDigit ∧ m2.isDigit ∧ d1.isDigit ∧ d2.isDigit
        ∧ h1.isDigit ∧ h2.isDigit ∧ i1.isDigit ∧ i2.isDigit
        ∧ s1.isDigit ∧ s2.isDigit then
      some (instantOfFields
        ((1000 * digitVal y1 + 100 * digitVal y2 + 10 * digitVal y3 + digitVal y4 : Nat) : Int)
        (10 * digitVal m1 + digitVal m2) (10 * digitVal d1 + digitVal d2)
        (10 * digitVal h1 + digitVal h2) (10 * digitVal i1 + digitVal i2)
        (10 * digitVal s1 + digitVal s2))
    else none
  | _ => none

end Hivexml

namespace Hivexml

/-! ### Node and value serialization -/

/-- `node_byte_runs` (hivexml.c:216): a node has exactly one byte run. -/
def node_byte_runs (n : HiveNode) : List Xml :=
  [Xml.start "byte_runs", Xml.start "byte_run",
   Xml.attrLit "file_offset" (Nat.repr n.handle), Xml.attrLit "len" (Nat.repr n.structLength),
   Xml.endE, Xml.endE]

/-- The `mtime` emission shared by `main` (hive level) and `node_start`:
only for a non-negative tick count, and only when `filetime_to_8601`
returns a buffer (it returns NULL exactly on tick count 0). -/
def mtimeElems (ts : Int) : List Xml :=
  if 0 ≤ ts then
    match filetime_to_8601 ts with
    | some tb => [Xml.start "mtime", Xml.text tb, Xml.endE]
    | none => []
  else []

/-- `node_start` (hivexml.c:287): open `node`, safety-classified `name`
attribute, `root="1"` iff the node is `hivex_root`, optional `mtime` child,
then the node's byte run.  The element is closed by `node_end`. -/
def node_start (h : Hive) (n : HiveNode) : List Xml :=
  [Xml.start "node"] ++ (safe_print_string_attribute "name" "name_encoding" n.name).1 ++
  (if n.handle = h.root then [Xml.attrLit "root" "1"] else []) ++
  mtimeElems n.timestamp ++ node_byte_runs n

/-- `node_end` (hivexml.c:320). -/
def node_end : List Xml := [Xml.endE]

/-- The events `main` (hivexml.c:137) emits before the traversal: the open
`hive` element and the optional hive-level `mtime`. -/
def hive_header (h : Hive) : List Xml := [Xml.start "hive"] ++ mtimeElems h.lastModified

/-- `start_value` (hivexml.c:328): open `value`, `type` attribute, optional
`value_encoding` attribute, then either a safety-classified `key` attribute
or, for the empty key string, `default="1"`. -/
def start_value (key : List Nat) (ty : String) (encoding : Option String) : List Xml :=
  [Xml.start "value", Xml.attrLit "type" ty] ++
  (match encoding with
   | some e => [Xml.attrLit "value_encoding" e]
   | none => []) ++
  (if cstr key = [] then [Xml.attrLit "default" "1"]
   else (safe_print_string_attribute "key" "key_encoding" key).1)

/-- `end_value` (hivexml.c:345). -/
def end_value : List Xml := [Xml.endE]

/-- `value_byte_runs` (hivexml.c:351): one byte run for the value structure,
plus a second one iff the collaborator-reported data cell length exceeds 4
(longer, out-of-line values). -/
def value_byte_runs (v : HiveValue) : List Xml :=
  [Xml.start "byte_runs", Xml.start "byte_run",
   Xml.attrLit "file_offset" (Nat.repr v.handle), Xml.attrLit "len" (Nat.repr v.structLength),
   Xml.endE] ++
  (if 4 < v.dataCellLength then
    [Xml.start "byte_run",
     Xml.attrLit "file_offset" (Nat.repr v.dataCellOffset),
     Xml.attrLit "len" (Nat.repr v.dataCellLength), Xml.endE]
   else []) ++
  [Xml.endE]

/-- The `switch (t)` of `value_string` (hivexml.c:399): the three expected
string types map to their tags, the nine other known `hive_type` enum
members `abort()` (`none`), anything else falls to `default:` and is tagged
"unknown". -/
def value_string_tag (t : Nat) : Option String :=
  if t = 1 then some "string"
  else if t = 2 then some "expand"
  else if t = 6 then some "link"
  else if t = 0 ∨ t = 3 ∨ t = 4 ∨ t = 5 ∨ t = 7 ∨ t = 8 ∨ t = 9 ∨ t = 10 ∨ t = 11 then none
  else some "unknown"

/-- `value_string` (hivexml.c:391).  `str` is the converted string. -/
def value_string (t : Nat) (v : HiveValue) (str : List Nat) : Option (List Xml) :=
  (value_string_tag t).map (fun ty =>
    start_value v.key ty none ++ (safe_print_string_attribute "value" "value_encoding" str).1 ++
    value_byte_runs v ++ end_value)

/-- One item of `value_multiple_strings`' loop (hivexml.c:436). -/
def multi_item (s : List Nat) : List Xml :=
  [Xml.start "string"] ++ (safe_print_string_attribute "value" "value_encoding" s).1 ++ [Xml.endE]

/-- `value_multiple_strings` (hivexml.c:426). -/
def value_multiple_strings (t : Nat) (v : HiveValue) (argv : List (List Nat)) : List Xml :=
  start_value v.key "string-list" none ++ (argv.map multi_item).flatten ++
  value_byte_runs v ++ end_value

/-- The `switch (t)` of `value_string_invalid_utf16` (hivexml.c:457). -/
def value_string_invalid_tag (t : Nat) : Option String :=
  if t = 1 then some "bad-string"
  else if t = 2 then some "bad-expand"
  else if t = 6 then some "bad-link"
  else if t = 7 then some "bad-string-list"
  else if t = 0 ∨ t = 3 ∨ t = 4 ∨ t = 5 ∨ t = 8 ∨ t = 9 ∨ t = 10 ∨ t = 11 then none
  else some "unknown"

/-- `value_string_invalid_utf16` (hivexml.c:447): the `value` attribute is
always `WriteBase64` of the original data bytes of the given length; no
printability classification is involved. -/
def value_string_invalid_utf16 (t : Nat) (v : HiveValue) : Option (List Xml) :=
  (value_string_invalid_tag t).map (fun ty =>
    start_value v.key ty (some "base64") ++ [Xml.attrB64 "value" (v.payload.take v.len)] ++
    value_byte_runs v ++ end_value)

/-- `value_dword` (hivexml.c:487): `type="int32"`, decimal signed value. -/
def value_dword (t : Nat) (v : HiveValue) (i : Int) : List Xml :=
  start_value v.key "int32" none ++ [Xml.attrLit "value" (toString i)] ++
  value_byte_runs v ++ end_value

/-- `value_qword` (hivexml.c:500): `type="int64"`, decimal signed value. -/
def value_qword (t : Nat) (v : HiveValue) (i : Int) : List Xml :=
  start_value v.key "int64" none ++ [Xml.attrLit "value" (toString i)] ++
  value_byte_runs v ++ end_value

/-- `value_binary` (hivexml.c:513): always base64. -/
def value_binary (t : Nat) (v : HiveValue) : List Xml :=
  start_value v.key "binary" (some "base64") ++ [Xml.attrB64 "value" (v.payload.take v.len)] ++
  value_byte_runs v ++ end_value

/-- `value_none` (hivexml.c:528): `value_encoding="base64"` is always
written by `start_value`, but the `value` attribute and the byte runs are
emitted only for a non-empty payload. -/
def value_none (t : Nat) (v : HiveValue) : List Xml :=
  start_value v.key "none" (some "base64") ++
  (if 0 < v.len then [Xml.attrB64 "value" (v.payload.take v.len)] ++ value_byte_runs v else []) ++
  end_value

/-- The `switch (t)` of `value_other` (hivexml.c:553). -/
def value_other_tag (t : Nat) : Option String :=
  if t = 8 then some "resource-list"
  else if t = 9 then some "resource-description"
  else if t = 10 then some "resource-requirements"
  else if t = 0 ∨ t = 1 ∨ t = 2 ∨ t = 3 ∨ t = 4 ∨ t = 5 ∨ t = 6 ∨ t = 7 ∨ t = 11 then none
  else some "unknown"

/-- `value_other` (hivexml.c:546): like `value_none` but for the resource
types and unknown types. -/
def value_other (t : Nat) (v : HiveValue) : Option (List Xml) :=
  (value_other_tag t).map (fun ty =>
    start_value v.key ty (some "base64") ++
    (if 0 < v.len then [Xml.attrB64 "value" (v.payload.take v.len)] ++ value_byte_runs v else []) ++
    end_value)

/-! ### Event observations used by the claims -/

/-- Is `e` an attribute named `nm` (of any encoding)? -/
def isAttrNamed (nm : String) (e : Xml) : Bool :=
  match e with
  | Xml.attrRaw n _ => n == nm
  | Xml.attrB64 n _ => n == nm
  | Xml.attrLit n _ => n == nm
  | _ => false

/-- Is `e` a raw (unescaped) attribute named `nm`? -/
def isRawAttr (nm : String) (e : Xml) : Bool :=
  match e with
  | Xml.attrRaw n _ => n == nm
  | _ => false

/-- Is `e` a base64-encoded attribute named `nm`? -/
def isB64Attr (nm : String) (e : Xml) : Bool :=
  match e with
  | Xml.attrB64 n _ => n == nm
  | _ => false

/-- Is `e` the encoding marker attribute `nm="base64"`? -/
def isEncAttr (nm : String) (e : Xml) : Bool :=
  match e with
  | Xml.attrLit n val => n == nm && val == "base64"
  | _ => false

/-- Is `e` the opening of an element named `nm`? -/
def isStartEl (nm : String) (e : Xml) : Bool :=
  match e with
  | Xml.start n => n == nm
  | _ => false

/-- Number of `byte_run` elements opened in `evs`. -/
def brCount (evs : List Xml) : Nat := evs.countP (isStartEl "byte_run")

/-- A concrete value with empty key and zero-length payload, as a
`hive_t_none` value with no data appears to the callbacks. -/
def hv0 : HiveValue := ⟨4096, 24, 0, 0, [], 0, []⟩

/-- A concrete value with a one-byte key and a five-byte payload. -/
def hv5 : HiveValue := ⟨4096, 24, 8192, 9, [65], 5, [1, 2, 3, 4, 5]⟩

/-- A concrete hive whose root node is handle 4096 and whose hive-level
timestamp is the collaborator's error signal. -/
def hive0 : Hive := ⟨4096, -1⟩

/-- A concrete node that is the root of `hive0`, with empty name and a
negative (error-signal) timestamp. -/
def hn0 : HiveNode := ⟨4096, [], -1, 78⟩

end Hivexml

namespace Hivexml

/-! ## Helper lemmas: the calendar model -/

theorem slen_pos (s : Nat) : 0 < slen s := by
  unfold slen; split <;> omega

theorem slen_le (s : Nat) : slen s ≤ 366 := by
  unfold slen; split <;> omega

theorem dstartY_succ (s : Nat) : dstartY (s + 1) = dstartY s + slen s := rfl

theorem findYearAux_spec (fuel : Nat) : ∀ s d : Nat,
    dstartY (findYearAux fuel s d).1 + (findYearAux fuel s d).2 = dstartY s + d ∧
    s ≤ (findYearAux fuel s d).1 ∧ (findYearAux fuel s d).1 ≤ s + fuel ∧
    ((findYearAux fuel s d).1 < s + fuel →
      (findYearAux fuel s d).2 < slen (findYearAux fuel s d).1) := by
  induction fuel with
  | zero => intro s d; simp [findYearAux]
  | succ fuel ih =>
    intro s d
    by_cases h : d < slen s
    · simp [findYearAux, h]
    · obtain ⟨ih1, ih2, ih3, ih4⟩ := ih (s + 1) (d - slen s)
      have hp := slen_pos s
      have hds := dstartY_succ s
      simp only [findYearAux, if_neg h]
      refine ⟨by omega, by omega, by omega, ?_⟩
      intro hlt
      exact ih4 (by omega)

theorem dstartY_400 : dstartY 400 = 146097 := by decide

theorem findYear_spec (d : Nat) (hd : d < 146097) :
    dstartY (findYear d).1 + (findYear d).2 = d ∧ (findYear d).1 ≤ 399 ∧
    (findYear d).2 < slen (findYear d).1 := by
  obtain ⟨h1, h2, h3, h4⟩ := findYearAux_spec 400 0 d
  have hz : dstartY 0 = 0 := rfl
  unfold findYear
  by_cases hc : (findYearAux 400 0 d).1 = 400
  · exfalso
    rw [hc, dstartY_400] at h1
    omega
  · exact ⟨by omega, by omega, h4 (by omega)⟩

theorem findMonth_spec : ∀ d, d < 366 →
    (findMonth d).1 ≤ 11 ∧ dstartM (findMonth d).1 + (findMonth d).2 = d ∧
    (findMonth d).2 < 31 ∧ (10 ≤ (findMonth d).1 → 306 ≤ d) := by decide

theorem dstartY_399 : dstartY 399 = 145731 := by decide

theorem civilFromDays_eq (z : Int) :
    civilFromDays z =
      (((z + 719468) / 146097) * 400 + ((findYear (((z + 719468) % 146097).toNat)).1 : Int) +
        (if 10 ≤ (findMonth (findYear (((z + 719468) % 146097).toNat)).2).1 then 1 else 0),
       (if (findMonth (findYear (((z + 719468) % 146097).toNat)).2).1 < 10
        then (findMonth (findYear (((z + 719468) % 146097).toNat)).2).1 + 3
        else (findMonth (findYear (((z + 719468) % 146097).toNat)).2).1 - 9),
       (findMonth (findYear (((z + 719468) % 146097).toNat)).2).2 + 1) := rfl

theorem daysFromCivil_eq (y : Int) (m d : Nat) :
    daysFromCivil y m d =
      ((if m ≤ 2 then y - 1 else y) / 400) * 146097 +
      ((dstartY ((if m ≤ 2 then y - 1 else y) -
          ((if m ≤ 2 then y - 1 else y) / 400) * 400).toNat +
        dstartM (if 3 ≤ m then m - 3 else m + 9) + (d - 1) : Nat) : Int) - 719468 := rfl

end Hivexml

namespace Hivexml

theorem civilFromDays_spec (z : Int) (h1 : -134774 ≤ z) (h2 : z ≤ 2932896) :
    1600 ≤ (civilFromDays z).1 ∧ (civilFromDays z).1 ≤ 9999 ∧
    1 ≤ (civilFromDays z).2.1 ∧ (civilFromDays z).2.1 ≤ 12 ∧
    1 ≤ (civilFromDays z).2.2 ∧ (civilFromDays z).2.2 ≤ 31 ∧
    daysFromCivil (civilFromDays z).1 (civilFromDays z).2.1 (civilFromDays z).2.2 = z := by
  rw [civilFromDays_eq]
  dsimp only
  have hera1 : 4 ≤ (z + 719468) / 146097 := by omega
  have hera2 : (z + 719468) / 146097 ≤ 24 := by omega
  have hdoeN : ((((z + 719468) % 146097).toNat : Nat) : Int) = (z + 719468) % 146097 := by omega
  have hdoeLt : ((z + 719468) % 146097).toNat < 146097 := by omega
  have hdec : z + 719468 = 146097 * ((z + 719468) / 146097) + (z + 719468) % 146097 := by omega
  set era : Int := (z + 719468) / 146097 with hera
  set doe : Nat := ((z + 719468) % 146097).toNat with hdoe
  obtain ⟨hy1, hy2, hy3⟩ := findYear_spec doe hdoeLt
  set s : Nat := (findYear doe).1 with hsdef
  set r : Nat := (findYear doe).2 with hrdef
  have hrlt : r < 366 := lt_of_lt_of_le hy3 (slen_le s)
  obtain ⟨hm1, hm2, hm3, hm4⟩ := findMonth_spec r hrlt
  set mp : Nat := (findMonth r).1 with hmpdef
  set r2 : Nat := (findMonth r).2 with hr2def
  by_cases hcase : mp < 10
  · -- March..December: month = mp + 3, no year adjustment
    rw [if_pos hcase, if_neg (by omega : ¬ 10 ≤ mp)]
    refine ⟨by omega, by omega, by omega, by omega, by omega, by omega, ?_⟩
    rw [daysFromCivil_eq]
    rw [if_neg (by omega : ¬ mp + 3 ≤ 2), if_pos (by omega : 3 ≤ mp + 3)]
    rw [show era * 400 + ((s : Nat) : Int) + 0 = era * 400 + (s : Int) from by ring]
    have hyoe : (era * 400 + (s : Int)) / 400 = era := by omega
    rw [hyoe]
    rw [show era * 400 + (s : Int) - era * 400 = (s : Int) from by ring]
    rw [Int.toNat_natCast]
    rw [show mp + 3 - 3 = mp from by omega]
    rw [show r2 + 1 - 1 = r2 from by omega]
    rw [show dstartY s + dstartM mp + r2 = doe from by omega]
    omega
  · -- January..February: month = mp - 9, year adjusted by +1
    have hmp10 : 10 ≤ mp := by omega
    rw [if_neg hcase, if_pos hmp10]
    have h306 : 306 ≤ r := hm4 hmp10
    have hs398 : era = 24 → s ≤ 398 := by
      intro h24
      by_contra hs
      have hs399 : s = 399 := by omega
      rw [hs399, dstartY_399] at hy1
      omega
    refine ⟨by omega, ?_, by omega, by omega, by omega, by omega, ?_⟩
    · by_cases h24 : era = 24
      · have := hs398 h24; omega
      · omega
    · rw [daysFromCivil_eq]
      rw [if_pos (by omega : mp - 9 ≤ 2), if_neg (by omega : ¬ 3 ≤ mp - 9)]
      rw [show era * 400 + ((s : Nat) : Int) + 1 - 1 = era * 400 + (s : Int) from by ring]
      have hyoe : (era * 400 + (s : Int)) / 400 = era := by omega
      rw [hyoe]
      rw [show era * 400 + (s : Int) - era * 400 = (s : Int) from by ring]
      rw [Int.toNat_natCast]
      rw [show mp - 9 + 9 = mp from by omega]
      rw [show r2 + 1 - 1 = r2 from by omega]
      rw [show dstartY s + dstartM mp + r2 = doe from by omega]
      omega

end Hivexml

namespace Hivexml

/-! ## Helper lemmas: decimal formatting and parsing -/

theorem natDigitsRev_zero (fuel : Nat) : natDigitsRev fuel 0 = [] := by
  cases fuel <;> simp [natDigitsRev]

theorem natDigitsRev_step (fuel n : Nat) (h : n ≠ 0) :
    natDigitsRev (fuel + 1) n = n % 10 :: natDigitsRev fuel (n / 10) := by
  simp [natDigitsRev, h]

theorem natDigits4 (n : Nat) (hl : 1000 ≤ n) (hu : n ≤ 9999) :
    natDigits n = [Nat.digitChar (n / 1000), Nat.digitChar (n / 100 % 10),
                   Nat.digitChar (n / 10 % 10), Nat.digitChar (n % 10)] := by
  unfold natDigits
  rw [show (24 : Nat) = 23 + 1 from rfl, natDigitsRev_step 23 n (by omega)]
  rw [show (23 : Nat) = 22 + 1 from rfl, natDigitsRev_step 22 (n / 10) (by omega)]
  rw [show (22 : Nat) = 21 + 1 from rfl, natDigitsRev_step 21 (n / 10 / 10) (by omega)]
  rw [show (21 : Nat) = 20 + 1 from rfl, natDigitsRev_step 20 (n / 10 / 10 / 10) (by omega)]
  rw [show n / 10 / 10 / 10 / 10 = 0 from by omega, natDigitsRev_zero]
  rw [show n / 10 / 10 / 10 % 10 = n / 1000 from by omega]
  rw [show n / 10 / 10 % 10 = n / 100 % 10 from by omega]
  rw [show n / 10 % 10 = n / 10 % 10 from rfl]
  simp

theorem padDigits4 (n : Nat) (hl : 1000 ≤ n) (hu : n ≤ 9999) :
    padDigits 4 n = natDigits n := by
  unfold padDigits
  rw [natDigits4 n hl hu]
  simp

theorem yearChars_in_range (y : Int) (hl : 1000 ≤ y) (hu : y ≤ 9999) :
    yearChars y = [Nat.digitChar (y.toNat / 1000), Nat.digitChar (y.toNat / 100 % 10),
                   Nat.digitChar (y.toNat / 10 % 10), Nat.digitChar (y.toNat % 10)] := by
  unfold yearChars
  rw [if_neg (by omega : ¬ y < 0)]
  rw [padDigits4 y.toNat (by omega) (by omega), natDigits4 y.toNat (by omega) (by omega)]

theorem digitChar_isDigit : ∀ k, k < 10 → (Nat.digitChar k).isDigit = true := by decide

theorem digitVal_digitChar : ∀ k, k < 10 → digitVal (Nat.digitChar k) = k := by decide

end Hivexml

namespace Hivexml

theorem parse_strftime (secs : Int) (h1 : -11644473600 ≤ secs) (h2 : secs ≤ 253402300799) :
    parse8601 (strftime8601 (gmtimeModel secs)) = some secs := by
  obtain ⟨hcy1, hcy2, hcm1, hcm2, hcd1, hcd2, hrt⟩ :=
    civilFromDays_spec (secs / 86400) (by omega) (by omega)
  set y : Int := (civilFromDays (secs / 86400)).1 with hy
  set m : Nat := (civilFromDays (secs / 86400)).2.1 with hm
  set d : Nat := (civilFromDays (secs / 86400)).2.2 with hd
  set sod : Nat := (secs % 86400).toNat with hsod
  have hsodlt : sod < 86400 := by omega
  have hgm : gmtimeModel secs = ⟨y, m, d, sod / 3600, sod % 3600 / 60, sod % 60⟩ := rfl
  rw [hgm]
  unfold strftime8601
  dsimp only
  rw [yearChars_in_range y (by omega) (by omega)]
  unfold pad2
  simp only [List.cons_append, List.nil_append]
  unfold parse8601
  dsimp only
  rw [if_pos ⟨rfl, rfl, rfl, rfl, rfl, rfl,
    digitChar_isDigit _ (by omega), digitChar_isDigit _ (by omega),
    digitChar_isDigit _ (by omega), digitChar_isDigit _ (by omega),
    digitChar_isDigit _ (by omega), digitChar_isDigit _ (by omega),
    digitChar_isDigit _ (by omega), digitChar_isDigit _ (by omega),
    digitChar_isDigit _ (by omega), digitChar_isDigit _ (by omega),
    digitChar_isDigit _ (by omega), digitChar_isDigit _ (by omega),
    digitChar_isDigit _ (by omega), digitChar_isDigit _ (by omega)⟩]
  rw [digitVal_digitChar _ (by omega), digitVal_digitChar _ (by omega),
      digitVal_digitChar _ (by omega), digitVal_digitChar _ (by omega),
      digitVal_digitChar _ (by omega), digitVal_digitChar _ (by omega),
      digitVal_digitChar _ (by omega), digitVal_digitChar _ (by omega),
      digitVal_digitChar _ (by omega), digitVal_digitChar _ (by omega),
      digitVal_digitChar _ (by omega), digitVal_digitChar _ (by omega),
      digitVal_digitChar _ (by omega), digitVal_digitChar _ (by omega)]
  rw [show 1000 * (y.toNat / 1000) + 100 * (y.toNat / 100 % 10) + 10 * (y.toNat / 10 % 10) +
        y.toNat % 10 = y.toNat from by omega]
  rw [show 10 * (m / 10 % 10) + m % 10 = m from by omega]
  rw [show 10 * (d / 10 % 10) + d % 10 = d from by omega]
  rw [show 10 * (sod / 3600 / 10 % 10) + sod / 3600 % 10 = sod / 3600 from by omega]
  rw [show 10 * (sod % 3600 / 60 / 10 % 10) + sod % 3600 / 60 % 10 = sod % 3600 / 60 from by omega]
  rw [show 10 * (sod % 60 / 10 % 10) + sod % 60 % 10 = sod % 60 from by omega]
  rw [show ((y.toNat : Nat) : Int) = y from by omega]
  unfold instantOfFields
  rw [hrt]
  rw [show 3600 * (sod / 3600) + 60 * (sod % 3600 / 60) + sod % 60 = sod from by omega]
  simp only [Option.some.injEq]
  omega

end Hivexml

namespace Hivexml

/-- C2, counterexample: the claim demands strict `YYYY-MM-DDTHH:MM:SSZ` form
for every nonzero tick count, but tick count 2650467744000000000 converts to
Unix second 253402300800 (1 January of year 10000) and is formatted with a
five-digit year, a 21-character string that cannot match
`^\d{4}-\d{2}-\d{2}T\d{2}:\d{2}:\d{2}Z$`. -/
theorem c2_counterexample :
    filetime_to_8601 2650467744000000000 = some "10000-01-01T00:00:00Z" ∧
    ((filetime_to_8601 2650467744000000000).getD "").length = 21 := by
  constructor
  · decide
  · decide

/-- C2, amended: the Timestamp Converter returns no string iff the tick
count is 0; for every tick count `t` with `0 < t < 2650467744000000000`
(instants up to year 9999) the returned string is in strict
`YYYY-MM-DDTHH:MM:SSZ` form and denotes the Unix-epoch second
`t / 10,000,000 - 11,644,473,600` (C truncating division), as checked by
the reference reader `parse8601`, which accepts exactly the strict form
and returns the denoted instant. -/
theorem c2_amended (t : Int) :
    (filetime_to_8601 t = none ↔ t = 0) ∧
    (0 < t → t < 2650467744000000000 →
      parse8601 ((filetime_to_8601 t).getD "") = some (Int.tdiv t 10000000 - 11644473600)) := by
  constructor
  · unfold filetime_to_8601
    split
    · simp_all
    · simp_all
  · intro ht1 ht2
    obtain ⟨n, rfl⟩ : ∃ n : Nat, t = (n : Int) := ⟨t.toNat, by omega⟩
    have htd : Int.tdiv (n : Int) 10000000 = ((n / 10000000 : Nat) : Int) := rfl
    unfold filetime_to_8601
    rw [if_neg (by omega : ¬ (n : Int) = 0)]
    simp only [Option.getD_some]
    rw [htd]
    exact parse_strftime _ (by omega) (by omega)

/-- C2, witness: at tick count 116444736000000000 the hypotheses of
`c2_amended` hold and the converter yields "1970-01-01T00:00:00Z",
denoting Unix-epoch second 0. -/
theorem c2_amended_witness :
    (0 : Int) < 116444736000000000 ∧ (116444736000000000 : Int) < 2650467744000000000 ∧
    parse8601 ((filetime_to_8601 116444736000000000).getD "") = some 0 ∧
    filetime_to_8601 116444736000000000 = some "1970-01-01T00:00:00Z" := by
  refine ⟨by decide, by decide, ?_, by decide⟩
  have h := (c2_amended 116444736000000000).2 (by decide) (by decide)
  rw [h]
  decide

end Hivexml

namespace Hivexml

/-! ## Helper lemmas: the encoding classifier -/

theorem encRecLoop_true (l : List Nat) : encRecLoop l true = l.all isprintB := by
  induction l with
  | nil => rfl
  | cons b rest ih =>
    by_cases h : isprintB b
    · simp [encRecLoop, h, ih]
    · simp [encRecLoop, h]

theorem encRecLoop_false (l : List Nat) (h : l ≠ []) : encRecLoop l false = l.all isprintB := by
  cases l with
  | nil => exact absurd rfl h
  | cons b rest =>
    by_cases hb : isprintB b
    · simp [encRecLoop, hb, encRecLoop_true]
    · simp [encRecLoop, hb]

theorem cstr_of_nul_free (xs : List Nat) (h : ∀ b ∈ xs, b ≠ 0) : cstr xs = xs := by
  unfold cstr
  rw [List.takeWhile_eq_self_iff.mpr]
  intro b hb
  simpa using h b hb

theorem cstr_append_nul (xs ys : List Nat) (h : ∀ b ∈ xs, b ≠ 0) :
    cstr (xs ++ 0 :: ys) = xs := by
  induction xs with
  | nil => simp [cstr]
  | cons b rest ih =>
    have hb : b ≠ 0 := h b (by simp)
    have hr := ih (fun x hx => h x (by simp [hx]))
    simp only [cstr, List.cons_append, List.takeWhile_cons] at hr ⊢
    rw [if_pos (by simpa using hb), hr]

theorem encoding_recommendation_cases (data : List Nat) :
    encoding_recommendation data = "none" ∨ encoding_recommendation data = "base64" := by
  unfold encoding_recommendation
  split <;> simp

/-- C3, counterexample: the empty byte sequence (no bytes before the NUL
terminator) vacuously contains only printable bytes, so the claim requires
"direct" (the code's "none"), but `encoding_recommendation` returns
"base64" because the scanning loop never sets `is_printable`. -/
theorem c3_counterexample :
    encoding_recommendation [] = "base64" ∧ encoding_recommendation [] ≠ "none" := by
  constructor
  · decide
  · decide

/-- C3, amended: the classifier never inspects bytes at or after the first
NUL, and for every byte sequence with at least one byte before the first
NUL it returns "none" (direct) when every such byte is printable ASCII and
"base64" (escaped) when some such byte is non-printable; the empty
sequence returns "base64" (see `c3_counterexample`). -/
theorem c3_amended (xs ys : List Nat) (h : ∀ b ∈ xs, b ≠ 0) :
    encoding_recommendation (xs ++ 0 :: ys) = encoding_recommendation xs ∧
    (xs ≠ [] →
      ((∀ b ∈ xs, isprintB b = true) → encoding_recommendation xs = "none") ∧
      ((∃ b ∈ xs, isprintB b = false) → encoding_recommendation xs = "base64")) := by
  refine ⟨?_, ?_⟩
  · unfold encoding_recommendation
    rw [cstr_append_nul xs ys h, cstr_of_nul_free xs h]
  · intro hne
    constructor
    · intro hall
      unfold encoding_recommendation
      rw [cstr_of_nul_free xs h, encRecLoop_false xs hne]
      rw [List.all_eq_true.mpr hall]
      simp
    · rintro ⟨b, hb, hbp⟩
      unfold encoding_recommendation
      rw [cstr_of_nul_free xs h, encRecLoop_false xs hne]
      have hfalse : xs.all isprintB = false := by
        rw [List.all_eq_false]
        exact ⟨b, hb, by simp [hbp]⟩
      rw [hfalse]
      simp

/-- C3, witness: for the one-byte printable sequence `[65]` followed by a
NUL and a stray byte `7`, bytes after the NUL are ignored and the
classifier answers "none"; for `[7]` it answers "base64". -/
theorem c3_amended_witness :
    encoding_recommendation ([65] ++ 0 :: [7]) = encoding_recommendation [65] ∧
    encoding_recommendation [65] = "none" ∧ encoding_recommendation [7] = "base64" := by
  have h1 := c3_amended [65] [7] (by decide)
  have h2 := c3_amended [7] [] (by decide)
  exact ⟨h1.1, (h1.2 (by decide)).1 (by decide),
         (h2.2 (by decide)).2 ⟨7, by decide, by decide⟩⟩

end Hivexml

namespace Hivexml

/-! ## Helper lemmas: shapes of emitted event lists -/

theorem sp_cases (nm enc : String) (data : List Nat) :
    (encoding_recommendation data = "none" ∧
     (safe_print_string_attribute nm enc data).1 = [Xml.attrRaw nm (cstr data)]) ∨
    (encoding_recommendation data = "base64" ∧
     (safe_print_string_attribute nm enc data).1 =
       [Xml.attrLit enc "base64", Xml.attrB64 nm (cstr data)]) := by
  rcases encoding_recommendation_cases data with h | h
  · left
    exact ⟨h, by simp [safe_print_string_attribute, h]⟩
  · right
    refine ⟨h, ?_⟩
    unfold safe_print_string_attribute
    rw [h]
    simp

theorem mem_mtimeElems (ts : Int) (e : Xml) (he : e ∈ mtimeElems ts) :
    e = Xml.start "mtime" ∨ e = Xml.endE ∨ ∃ s, e = Xml.text s := by
  unfold mtimeElems at he
  split at he
  · split at he
    · simp at he
      rcases he with h | h | h
      · exact Or.inl h
      · exact Or.inr (Or.inr ⟨_, h⟩)
      · exact Or.inr (Or.inl h)
    · simp at he
  · simp at he

theorem mtimeElems_countP (ts : Int) (p : Xml → Bool)
    (h1 : p (Xml.start "mtime") = false) (h2 : p Xml.endE = false)
    (h3 : ∀ s, p (Xml.text s) = false) :
    (mtimeElems ts).countP p = 0 := by
  rw [List.countP_eq_zero]
  intro e he
  rcases mem_mtimeElems ts e he with h | h | ⟨s, h⟩ <;> subst h <;> simp [h1, h2, h3]

theorem sp_countP_start (nm enc : String) (data : List Nat) (el : String) :
    ((safe_print_string_attribute nm enc data).1).countP (isStartEl el) = 0 := by
  rcases sp_cases nm enc data with ⟨_, he⟩ | ⟨_, he⟩ <;> rw [he] <;> rfl

/-- C9: for the empty byte sequence — a lone NUL terminator, vacuously all
printable — the Encoding Safety Classifier returns escaped ("base64"), so a
node with an empty name gets `name_encoding="base64"` and a base64-encoded
empty `name` attribute, never a raw `name` attribute. -/
theorem c9_theorem :
    encoding_recommendation [] = "base64" ∧
    ∀ (h : Hive) (n : HiveNode), n.name = [] →
      Xml.attrLit "name_encoding" "base64" ∈ node_start h n ∧
      Xml.attrB64 "name" [] ∈ node_start h n ∧
      (node_start h n).countP (isRawAttr "name") = 0 := by
  refine ⟨by decide, ?_⟩
  intro h n hn
  have hsp : (safe_print_string_attribute "name" "name_encoding" n.name).1 =
      [Xml.attrLit "name_encoding" "base64", Xml.attrB64 "name" []] := by
    rw [hn]; rfl
  refine ⟨?_, ?_, ?_⟩
  · unfold node_start
    rw [hsp]
    simp
  · unfold node_start
    rw [hsp]
    simp
  · unfold node_start
    rw [hsp]
    simp only [List.countP_append]
    rw [mtimeElems_countP n.timestamp _ rfl rfl (fun s => rfl)]
    split <;> rfl

/-- C9, witness: the root node of `hive0` has the empty name; its `node`
element carries `name_encoding="base64"` and a base64 (empty) `name`. -/
theorem c9_witness :
    Xml.attrLit "name_encoding" "base64" ∈ node_start hive0 hn0 ∧
    Xml.attrB64 "name" [] ∈ node_start hive0 hn0 ∧
    (node_start hive0 hn0).countP (isRawAttr "name") = 0 :=
  (c9_theorem.2 hive0 hn0 rfl)

theorem attrLit_one_not_mem_sp (nm enc : String) (data : List Nat) (a : String) :
    Xml.attrLit a "1" ∉ (safe_print_string_attribute nm enc data).1 := by
  rcases sp_cases nm enc data with ⟨_, he⟩ | ⟨_, he⟩ <;> rw [he] <;> simp

/-- C7: a `node` element carries `root="1"` exactly when the node it was
produced for is the collaborator's root node; no other node element
carries a `root` attribute. -/
theorem c7_theorem (h : Hive) (n : HiveNode) :
    Xml.attrLit "root" "1" ∈ node_start h n ↔ n.handle = h.root := by
  constructor
  · intro hm
    by_cases hr : n.handle = h.root
    · exact hr
    exfalso
    unfold node_start at hm
    rw [if_neg hr] at hm
    rcases List.mem_append.mp hm with hm | hm
    · rcases List.mem_append.mp hm with hm | hm
      · rcases List.mem_append.mp hm with hm | hm
        · rcases List.mem_append.mp hm with hm | hm
          · simp at hm
          · exact attrLit_one_not_mem_sp _ _ _ _ hm
        · simp at hm
      · rcases mem_mtimeElems n.timestamp _ hm with h3 | h3 | ⟨s, h3⟩ <;> simp at h3
    · unfold node_byte_runs at hm
      simp +decide at hm
  · intro he
    unfold node_start
    rw [if_pos he]
    simp

end Hivexml

namespace Hivexml

/-- C6: a value element gets `default="1"` and no `key` attribute exactly
when its key name (as a C string) is empty; a non-empty key name gets a
`key` attribute (raw or base64) and no `default` attribute.  All value
callbacks emit these attributes through `start_value`. -/
theorem c6_theorem (key : List Nat) (ty : String) (enc : Option String) :
    (cstr key = [] →
      Xml.attrLit "default" "1" ∈ start_value key ty enc ∧
      (start_value key ty enc).countP (isAttrNamed "key") = 0) ∧
    (cstr key ≠ [] →
      (start_value key ty enc).countP (isAttrNamed "key") = 1 ∧
      (start_value key ty enc).countP (isAttrNamed "default") = 0) := by
  constructor
  · intro hk
    unfold start_value
    rw [if_pos hk]
    constructor
    · rcases enc with _ | e <;> simp
    · rcases enc with _ | e <;>
        simp +decide [isAttrNamed, List.countP_append, List.countP_cons, List.countP_nil]
  · intro hk
    unfold start_value
    rw [if_neg hk]
    constructor
    · rcases sp_cases "key" "key_encoding" key with ⟨_, he⟩ | ⟨_, he⟩ <;> rw [he] <;>
        rcases enc with _ | e <;>
        simp +decide [isAttrNamed, List.countP_append, List.countP_cons, List.countP_nil]
    · rcases sp_cases "key" "key_encoding" key with ⟨_, he⟩ | ⟨_, he⟩ <;> rw [he] <;>
        rcases enc with _ | e <;>
        simp +decide [isAttrNamed, List.countP_append, List.countP_cons, List.countP_nil]

/-- C6, witness: the empty key yields `default="1"` and no `key` attribute;
the key `[65]` ("A") yields exactly one `key` attribute and no `default`. -/
theorem c6_witness :
    Xml.attrLit "default" "1" ∈ start_value [] "none" (some "base64") ∧
    (start_value [65] "string" none).countP (isAttrNamed "key") = 1 ∧
    (start_value [65] "string" none).countP (isAttrNamed "default") = 0 := by
  refine ⟨((c6_theorem [] "none" (some "base64")).1 (by decide)).1, ?_, ?_⟩
  · exact ((c6_theorem [65] "string" none).2 (by decide)).1
  · exact ((c6_theorem [65] "string" none).2 (by decide)).2

/-- C10: a negative tick count (the collaborator's error signal) at hive
level or node level produces no `mtime` element; the timestamp converter's
guard (`last_modified >= 0`) skips it entirely and the rest of the entity
is serialized unchanged. -/
theorem c10_theorem (ts : Int) (hts : ts < 0) :
    mtimeElems ts = [] ∧
    (∀ hv : Hive, hv.lastModified = ts → hive_header hv = [Xml.start "hive"]) ∧
    (∀ (h : Hive) (n : HiveNode), n.timestamp = ts →
      node_start h n =
        [Xml.start "node"] ++ (safe_print_string_attribute "name" "name_encoding" n.name).1 ++
        (if n.handle = h.root then [Xml.attrLit "root" "1"] else []) ++ node_byte_runs n ∧
      (node_start h n).countP (isStartEl "mtime") = 0) := by
  have hm : mtimeElems ts = [] := by
    unfold mtimeElems
    rw [if_neg (by omega)]
  refine ⟨hm, ?_, ?_⟩
  · intro hv hlm
    unfold hive_header
    rw [hlm, hm]
    simp
  · intro h n hts2
    constructor
    · unfold node_start
      rw [hts2, hm]
      simp
    · unfold node_start
      rw [hts2, hm]
      simp only [List.countP_append, List.append_nil, List.countP_nil]
      rw [sp_countP_start]
      split <;>
        simp +decide [isStartEl, node_byte_runs, List.countP_cons, List.countP_nil,
          List.countP_append]

/-- C10, witness: `hive0` and `hn0` both carry timestamp -1; no `mtime` is
emitted for either and serialization continues. -/
theorem c10_witness :
    hive_header hive0 = [Xml.start "hive"] ∧
    (node_start hive0 hn0).countP (isStartEl "mtime") = 0 := by
  have h := c10_theorem (-1) (by decide)
  exact ⟨h.2.1 hive0 rfl, (h.2.2 hive0 hn0 rfl).2⟩

end Hivexml

namespace Hivexml

/-! ## Helper lemmas: per-chunk attribute counts -/

theorem start_value_countP_rawValue (key : List Nat) (ty : String) (enc : Option String) :
    (start_value key ty enc).countP (isRawAttr "value") = 0 := by
  unfold start_value
  by_cases hk : cstr key = []
  · rw [if_pos hk]
    rcases enc with _ | e <;>
      simp +decide [isRawAttr, List.countP_append, List.countP_cons, List.countP_nil]
  · rw [if_neg hk]
    rcases sp_cases "key" "key_encoding" key with ⟨_, he⟩ | ⟨_, he⟩ <;> rw [he] <;>
      rcases enc with _ | e <;>
      simp +decide [isRawAttr, List.countP_append, List.countP_cons, List.countP_nil]

theorem start_value_countP_b64Value (key : List Nat) (ty : String) (enc : Option String) :
    (start_value key ty enc).countP (isB64Attr "value") = 0 := by
  unfold start_value
  by_cases hk : cstr key = []
  · rw [if_pos hk]
    rcases enc with _ | e <;>
      simp +decide [isB64Attr, List.countP_append, List.countP_cons, List.countP_nil]
  · rw [if_neg hk]
    rcases sp_cases "key" "key_encoding" key with ⟨_, he⟩ | ⟨_, he⟩ <;> rw [he] <;>
      rcases enc with _ | e <;>
      simp +decide [isB64Attr, List.countP_append, List.countP_cons, List.countP_nil]

theorem start_value_brCount (key : List Nat) (ty : String) (enc : Option String) :
    (start_value key ty enc).countP (isStartEl "byte_run") = 0 := by
  unfold start_value
  by_cases hk : cstr key = []
  · rw [if_pos hk]
    rcases enc with _ | e <;>
      simp +decide [isStartEl, List.countP_append, List.countP_cons, List.countP_nil]
  · rw [if_neg hk]
    rcases sp_cases "key" "key_encoding" key with ⟨_, he⟩ | ⟨_, he⟩ <;> rw [he] <;>
      rcases enc with _ | e <;>
      simp +decide [isStartEl, List.countP_append, List.countP_cons, List.countP_nil]

theorem vbr_countP_rawValue (v : HiveValue) :
    (value_byte_runs v).countP (isRawAttr "value") = 0 := by
  unfold value_byte_runs
  split <;> rfl

theorem vbr_countP_b64Value (v : HiveValue) :
    (value_byte_runs v).countP (isB64Attr "value") = 0 := by
  unfold value_byte_runs
  split <;> rfl

theorem vbr_countP_encValue (v : HiveValue) :
    (value_byte_runs v).countP (isEncAttr "value_encoding") = 0 := by
  unfold value_byte_runs
  split <;> rfl

theorem attrType_mem_start_value (key : List Nat) (ty : String) (enc : Option String) :
    Xml.attrLit "type" ty ∈ start_value key ty enc := by
  unfold start_value
  simp

/-- C5: whenever the invalid-text callback is invoked for one of the text
types of its contract (string, expand-string, link, multi-string), the
emitted value element carries a `bad-`-prefixed type tag, and its `value`
attribute is the base64 encoding of the raw original payload bytes of the
given length — never a raw (classifier-approved) text attribute. -/
theorem c5_theorem (t : Nat) (v : HiveValue) (ht : t = 1 ∨ t = 2 ∨ t = 6 ∨ t = 7) :
    ∃ evs tag, value_string_invalid_utf16 t v = some evs ∧
      value_string_invalid_tag t = some tag ∧
      (tag = "bad-" ++ "string" ∨ tag = "bad-" ++ "expand" ∨ tag = "bad-" ++ "link" ∨
        tag = "bad-" ++ "string-list") ∧
      Xml.attrLit "type" tag ∈ evs ∧
      Xml.attrB64 "value" (v.payload.take v.len) ∈ evs ∧
      evs.countP (isRawAttr "value") = 0 ∧
      evs.countP (isB64Attr "value") = 1 := by
  rcases ht with rfl | rfl | rfl | rfl <;>
    refine ⟨_, _, rfl, rfl, by decide, ?_, ?_, ?_, ?_⟩ <;>
    first
    | (apply List.mem_append_left
       apply List.mem_append_left
       apply List.mem_append_left
       exact attrType_mem_start_value _ _ _)
    | (apply List.mem_append_left
       apply List.mem_append_left
       apply List.mem_append_right
       simp)
    | (simp only [List.countP_append]
       rw [start_value_countP_rawValue, vbr_countP_rawValue]
       rfl)
    | (simp only [List.countP_append]
       rw [start_value_countP_b64Value, vbr_countP_b64Value]
       rfl)

/-- C5, witness: for type tag 1 (`hive_t_string`) and the concrete value
`hv5`, the element is tagged `bad-string` and carries a base64 `value`. -/
theorem c5_witness :
    value_string_invalid_tag 1 = some "bad-string" ∧
    (value_string_invalid_utf16 1 hv5).isSome = true ∧
    ((value_string_invalid_utf16 1 hv5).getD []).countP (isRawAttr "value") = 0 := by
  obtain ⟨evs, tag, h1, h2, h3, h5, h6, h7, h8⟩ := c5_theorem 1 hv5 (Or.inl rfl)
  refine ⟨rfl, ?_, ?_⟩
  · rw [h1]
    rfl
  · rw [h1, Option.getD_some]
    exact h7

end Hivexml

namespace Hivexml

/-- C8, counterexample: the claim says any type tag outside a callback's
expected subset aborts, but `value_string` invoked with tag 12 — outside
its expected subset {string, expand, link} and outside the known enum —
falls to the `default:` case, is tagged "unknown", and returns normally,
emitting a full value element. -/
theorem c8_counterexample :
    (value_string 12 hv0 []).isSome = true ∧ value_string_tag 12 = some "unknown" := by
  constructor
  · decide
  · decide

/-- C8, amended: in the tag-checking callbacks (`value_string`,
`value_string_invalid_utf16`, `value_other`), a type tag that belongs to
the known closed enum (≤ 11) but lies outside the callback's expected
subset aborts immediately with nothing emitted; a tag outside the known
enum (≥ 12) does not abort and is serialized with type "unknown". -/
theorem c8_amended (t : Nat) (v : HiveValue) (str : List Nat) :
    (t ≤ 11 → ¬(t = 1 ∨ t = 2 ∨ t = 6) → value_string t v str = none) ∧
    (t ≤ 11 → ¬(t = 1 ∨ t = 2 ∨ t = 6 ∨ t = 7) → value_string_invalid_utf16 t v = none) ∧
    (t ≤ 11 → ¬(t = 8 ∨ t = 9 ∨ t = 10) → value_other t v = none) ∧
    (12 ≤ t →
      value_string_tag t = some "unknown" ∧ value_string_invalid_tag t = some "unknown" ∧
      value_other_tag t = some "unknown" ∧ (value_string t v str).isSome = true ∧
      (value_string_invalid_utf16 t v).isSome = true ∧ (value_other t v).isSome = true) := by
  refine ⟨?_, ?_, ?_, ?_⟩
  · intro h1 h2
    have h := (show ∀ u, u ≤ 11 → ¬(u = 1 ∨ u = 2 ∨ u = 6) → value_string_tag u = none
      from by decide) t h1 h2
    unfold value_string
    rw [h]
    rfl
  · intro h1 h2
    have h := (show ∀ u, u ≤ 11 → ¬(u = 1 ∨ u = 2 ∨ u = 6 ∨ u = 7) →
        value_string_invalid_tag u = none from by decide) t h1 h2
    unfold value_string_invalid_utf16
    rw [h]
    rfl
  · intro h1 h2
    have h := (show ∀ u, u ≤ 11 → ¬(u = 8 ∨ u = 9 ∨ u = 10) → value_other_tag u = none
      from by decide) t h1 h2
    unfold value_other
    rw [h]
    rfl
  · intro h12
    have hs : value_string_tag t = some "unknown" := by
      unfold value_string_tag
      rw [if_neg (by omega), if_neg (by omega), if_neg (by omega), if_neg (by omega)]
    have hi : value_string_invalid_tag t = some "unknown" := by
      unfold value_string_invalid_tag
      rw [if_neg (by omega), if_neg (by omega), if_neg (by omega), if_neg (by omega),
        if_neg (by omega)]
    have ho : value_other_tag t = some "unknown" := by
      unfold value_other_tag
      rw [if_neg (by omega), if_neg (by omega), if_neg (by omega), if_neg (by omega)]
    refine ⟨hs, hi, ho, ?_, ?_, ?_⟩
    · unfold value_string
      rw [hs]
      rfl
    · unfold value_string_invalid_utf16
      rw [hi]
      rfl
    · unfold value_other
      rw [ho]
      rfl

/-- C8, witness: tag 4 (`hive_t_dword`) is in the known enum but outside
the expected subset of all three tag-checking callbacks, so each aborts. -/
theorem c8_amended_witness :
    value_string 4 hv0 [] = none ∧ value_string_invalid_utf16 4 hv0 = none ∧
    value_other 4 hv0 = none := by
  have h := c8_amended 4 hv0 []
  exact ⟨h.1 (by decide) (by decide), h.2.1 (by decide) (by decide),
         h.2.2.1 (by decide) (by decide)⟩

end Hivexml

namespace Hivexml

theorem end_value_brCount : (end_value).countP (isStartEl "byte_run") = 0 := rfl

theorem multi_items_brCount (argv : List (List Nat)) :
    ((argv.map multi_item).flatten).countP (isStartEl "byte_run") = 0 := by
  induction argv with
  | nil => rfl
  | cons a rest ih =>
    simp only [List.map_cons, List.flatten_cons, List.countP_append]
    rw [ih]
    unfold multi_item
    simp only [List.countP_append]
    rw [sp_countP_start]
    rfl

/-- C1, counterexample: a `hive_t_none` value with zero-length payload (at
most 4 bytes, so the claim requires exactly one `byte_run`) produces a
value element containing no `byte_runs` element and zero `byte_run`
elements — `value_none` skips `value_byte_runs` entirely when `len == 0`. -/
theorem c1_counterexample :
    Xml.start "value" ∈ value_none 0 hv0 ∧ hv0.len ≤ 4 ∧ brCount (value_none 0 hv0) = 0 := by
  refine ⟨by decide, by decide, by decide⟩

/-- C1, amended: for value elements that emit their byte runs — all typed
callbacks except `value_none`/`value_other` with zero-length payload — a
second `byte_run` is present iff the payload length exceeds 4 bytes and
exactly one is present otherwise; `value_none` and `value_other` with
zero-length payload emit no `byte_run` at all.  (The data-cell length is
related to the payload length through the spec-modelled collaborator
contract `specDataCell`.) -/
theorem c1_amended (v : HiveValue) (hdc : specDataCell v) :
    brCount (value_byte_runs v) = (if 4 < v.len then 2 else 1) ∧
    (∀ t str, t = 1 ∨ t = 2 ∨ t = 6 →
      ∃ evs, value_string t v str = some evs ∧ brCount evs = (if 4 < v.len then 2 else 1)) ∧
    (∀ t argv, brCount (value_multiple_strings t v argv) = (if 4 < v.len then 2 else 1)) ∧
    (∀ t, t = 1 ∨ t = 2 ∨ t = 6 ∨ t = 7 →
      ∃ evs, value_string_invalid_utf16 t v = some evs ∧
        brCount evs = (if 4 < v.len then 2 else 1)) ∧
    (∀ t i, brCount (value_dword t v i) = (if 4 < v.len then 2 else 1)) ∧
    (∀ t i, brCount (value_qword t v i) = (if 4 < v.len then 2 else 1)) ∧
    (∀ t, brCount (value_binary t v) = (if 4 < v.len then 2 else 1)) ∧
    (∀ t, brCount (value_none t v) =
      (if 0 < v.len then (if 4 < v.len then 2 else 1) else 0)) ∧
    (∀ t, t = 8 ∨ t = 9 ∨ t = 10 →
      ∃ evs, value_other t v = some evs ∧
        brCount evs = (if 0 < v.len then (if 4 < v.len then 2 else 1) else 0)) := by
  have hvbr : (value_byte_runs v).countP (isStartEl "byte_run") = (if 4 < v.len then 2 else 1) := by
    unfold value_byte_runs
    by_cases h4 : 4 < v.dataCellLength
    · rw [if_pos h4, if_pos (hdc.mp h4)]
      rfl
    · rw [if_neg h4, if_neg (fun hl => h4 (hdc.mpr hl))]
      rfl
  refine ⟨hvbr, ?_, ?_, ?_, ?_, ?_, ?_, ?_, ?_⟩
  · intro t str ht
    rcases ht with rfl | rfl | rfl <;>
      refine ⟨_, rfl, ?_⟩ <;>
      · unfold brCount
        simp only [List.countP_append]
        rw [start_value_brCount, sp_countP_start, hvbr, end_value_brCount]
        omega
  · intro t argv
    unfold brCount value_multiple_strings
    simp only [List.countP_append]
    rw [start_value_brCount, multi_items_brCount, hvbr, end_value_brCount]
    omega
  · intro t ht
    rcases ht with rfl | rfl | rfl | rfl <;>
      refine ⟨_, rfl, ?_⟩ <;>
      · unfold brCount
        simp only [List.countP_append]
        rw [start_value_brCount, hvbr, end_value_brCount]
        simp only [List.countP_cons, List.countP_nil, isStartEl]
        simp
  · intro t i
    unfold brCount value_dword
    simp only [List.countP_append]
    rw [start_value_brCount, hvbr, end_value_brCount]
    simp +decide [isStartEl, List.countP_cons, List.countP_nil]
  · intro t i
    unfold brCount value_qword
    simp only [List.countP_append]
    rw [start_value_brCount, hvbr, end_value_brCount]
    simp +decide [isStartEl, List.countP_cons, List.countP_nil]
  · intro t
    unfold brCount value_binary
    simp only [List.countP_append]
    rw [start_value_brCount, hvbr, end_value_brCount]
    simp +decide [isStartEl, List.countP_cons, List.countP_nil]
  · intro t
    unfold brCount value_none
    by_cases hl : 0 < v.len
    · rw [if_pos hl, if_pos hl]
      simp only [List.countP_append]
      rw [start_value_brCount, hvbr, end_value_brCount]
      simp +decide [isStartEl, List.countP_cons, List.countP_nil]
    · rw [if_neg hl, if_neg hl]
      simp only [List.countP_append]
      rw [start_value_brCount, end_value_brCount]
      rfl
  · intro t ht
    rcases ht with rfl | rfl | rfl <;>
      refine ⟨_, rfl, ?_⟩ <;>
      · unfold brCount
        by_cases hl : 0 < v.len
        · rw [if_pos hl, if_pos hl]
          simp only [List.countP_append]
          rw [start_value_brCount, hvbr, end_value_brCount]
          simp +decide [isStartEl, List.countP_cons, List.countP_nil]
        · rw [if_neg hl, if_neg hl]
          simp only [List.countP_append]
          rw [start_value_brCount, end_value_brCount]
          rfl

end Hivexml

namespace Hivexml

/-- C1, witness: `hv5` (payload length 5, data cell length 9) satisfies the
spec-modelled collaborator contract and yields two byte runs; `hv0`
(payload length 0, no data cell) yields one byte run where byte runs are
emitted at all. -/
theorem c1_witness :
    brCount (value_byte_runs hv5) = 2 ∧ brCount (value_none 0 hv5) = 2 ∧
    brCount (value_byte_runs hv0) = 1 := by
  have h5 := c1_amended hv5 (by unfold specDataCell; decide)
  have h0 := c1_amended hv0 (by unfold specDataCell; decide)
  refine ⟨?_, ?_, ?_⟩
  · rw [h5.1]
    decide
  · rw [h5.2.2.2.2.2.2.2.1 0]
    decide
  · rw [h0.1]
    decide

end Hivexml

namespace Hivexml

theorem sp_counts_value (data : List Nat) :
    ((safe_print_string_attribute "value" "value_encoding" data).1).countP
        (isEncAttr "value_encoding") =
      ((safe_print_string_attribute "value" "value_encoding" data).1).countP
        (isB64Attr "value") := by
  rcases sp_cases "value" "value_encoding" data with ⟨_, he⟩ | ⟨_, he⟩ <;> rw [he] <;> rfl

theorem sp_counts_key (data : List Nat) :
    ((safe_print_string_attribute "key" "key_encoding" data).1).countP
        (isEncAttr "key_encoding") =
      ((safe_print_string_attribute "key" "key_encoding" data).1).countP
        (isB64Attr "key") := by
  rcases sp_cases "key" "key_encoding" data with ⟨_, he⟩ | ⟨_, he⟩ <;> rw [he] <;> rfl

theorem sp_counts_name (data : List Nat) :
    ((safe_print_string_attribute "name" "name_encoding" data).1).countP
        (isEncAttr "name_encoding") =
      ((safe_print_string_attribute "name" "name_encoding" data).1).countP
        (isB64Attr "name") := by
  rcases sp_cases "name" "name_encoding" data with ⟨_, he⟩ | ⟨_, he⟩ <;> rw [he] <;> rfl

theorem node_byte_runs_countP_enc (nd : HiveNode) :
    (node_byte_runs nd).countP (isEncAttr "name_encoding") = 0 := rfl

theorem node_byte_runs_countP_b64 (nd : HiveNode) :
    (node_byte_runs nd).countP (isB64Attr "name") = 0 := rfl

theorem start_value_encValue_none (key : List Nat) (ty : String) :
    (start_value key ty none).countP (isEncAttr "value_encoding") = 0 := by
  unfold start_value
  by_cases hk : cstr key = []
  · rw [if_pos hk]
    rfl
  · rw [if_neg hk]
    rcases sp_cases "key" "key_encoding" key with ⟨_, he⟩ | ⟨_, he⟩ <;> rw [he] <;> rfl

theorem start_value_encValue_b64 (key : List Nat) (ty : String) :
    (start_value key ty (some "base64")).countP (isEncAttr "value_encoding") = 1 := by
  unfold start_value
  by_cases hk : cstr key = []
  · rw [if_pos hk]
    rfl
  · rw [if_neg hk]
    rcases sp_cases "key" "key_encoding" key with ⟨_, he⟩ | ⟨_, he⟩ <;> rw [he] <;> rfl

theorem start_value_counts_keypair (key : List Nat) (ty : String) (enc : Option String) :
    (start_value key ty enc).countP (isEncAttr "key_encoding") =
      (start_value key ty enc).countP (isB64Attr "key") := by
  unfold start_value
  by_cases hk : cstr key = []
  · rw [if_pos hk]
    rcases enc with _ | e <;>
      simp +decide [isEncAttr, isB64Attr, List.countP_append, List.countP_cons, List.countP_nil]
  · rw [if_neg hk]
    rcases sp_cases "key" "key_encoding" key with ⟨_, he⟩ | ⟨_, he⟩ <;> rw [he] <;>
      rcases enc with _ | e <;>
      simp +decide [isEncAttr, isB64Attr, List.countP_append, List.countP_cons, List.countP_nil]

theorem multi_items_counts (argv : List (List Nat)) :
    ((argv.map multi_item).flatten).countP (isEncAttr "value_encoding") =
      ((argv.map multi_item).flatten).countP (isB64Attr "value") := by
  induction argv with
  | nil => rfl
  | cons a rest ih =>
    simp only [List.map_cons, List.flatten_cons, List.countP_append]
    rw [ih]
    unfold multi_item
    simp only [List.countP_append]
    rw [sp_counts_value]
    simp +decide [isEncAttr, isB64Attr, List.countP_cons, List.countP_nil]

/-- C4, counterexample: a `hive_t_none` value with zero-length payload gets
`value_encoding="base64"` from `start_value` although no `value` attribute
of any kind is emitted, so an encoding attribute is present without its
corresponding content attribute. -/
theorem c4_counterexample :
    (value_none 0 hv0).countP (isEncAttr "value_encoding") = 1 ∧
    (value_none 0 hv0).countP (isAttrNamed "value") = 0 := by
  constructor
  · decide
  · decide

/-- C4, amended: an encoding attribute (`name_encoding`, `key_encoding`, or
`value_encoding`, value "base64") is present exactly as often as the
corresponding content attribute is present base64-encoded — except in
`value_none` and `value_other`, where `value_encoding="base64"` is always
written although for a zero-length payload no `value` attribute follows. -/
theorem c4_amended :
    (∀ (h : Hive) (n : HiveNode),
      (node_start h n).countP (isEncAttr "name_encoding") =
        (node_start h n).countP (isB64Attr "name")) ∧
    (∀ (key : List Nat) (ty : String) (enc : Option String),
      (start_value key ty enc).countP (isEncAttr "key_encoding") =
        (start_value key ty enc).countP (isB64Attr "key")) ∧
    (∀ t v str evs, value_string t v str = some evs →
      evs.countP (isEncAttr "value_encoding") = evs.countP (isB64Attr "value")) ∧
    (∀ t v argv,
      (value_multiple_strings t v argv).countP (isEncAttr "value_encoding") =
        (value_multiple_strings t v argv).countP (isB64Attr "value")) ∧
    (∀ t v evs, value_string_invalid_utf16 t v = some evs →
      evs.countP (isEncAttr "value_encoding") = 1 ∧ evs.countP (isB64Attr "value") = 1) ∧
    (∀ t v i, (value_dword t v i).countP (isEncAttr "value_encoding") = 0 ∧
      (value_dword t v i).countP (isB64Attr "value") = 0) ∧
    (∀ t v i, (value_qword t v i).countP (isEncAttr "value_encoding") = 0 ∧
      (value_qword t v i).countP (isB64Attr "value") = 0) ∧
    (∀ t v, (value_binary t v).countP (isEncAttr "value_encoding") = 1 ∧
      (value_binary t v).countP (isB64Attr "value") = 1) ∧
    (∀ t v, (value_none t v).countP (isEncAttr "value_encoding") = 1 ∧
      (value_none t v).countP (isB64Attr "value") = (if 0 < v.len then 1 else 0) ∧
      (value_none t v).countP (isRawAttr "value") = 0) ∧
    (∀ t v evs, value_other t v = some evs →
      evs.countP (isEncAttr "value_encoding") = 1 ∧
      evs.countP (isB64Attr "value") = (if 0 < v.len then 1 else 0) ∧
      evs.countP (isRawAttr "value") = 0) := by
  refine ⟨?_, ?_, ?_, ?_, ?_, ?_, ?_, ?_, ?_, ?_⟩
  · intro h n
    unfold node_start
    simp only [List.countP_append]
    rw [sp_counts_name, node_byte_runs_countP_enc, node_byte_runs_countP_b64,
      mtimeElems_countP n.timestamp _ rfl rfl (fun s => rfl),
      mtimeElems_countP n.timestamp _ rfl rfl (fun s => rfl)]
    split <;> rfl
  · exact start_value_counts_keypair
  · intro t v str evs hevs
    rcases Option.map_eq_some'.mp hevs with ⟨ty, hty, rfl⟩
    simp only [List.countP_append]
    rw [sp_counts_value, start_value_encValue_none, start_value_countP_b64Value,
      vbr_countP_encValue, vbr_countP_b64Value]
    rfl
  · intro t v argv
    unfold value_multiple_strings
    simp only [List.countP_append]
    rw [multi_items_counts, start_value_encValue_none, start_value_countP_b64Value,
      vbr_countP_encValue, vbr_countP_b64Value]
    rfl
  · intro t v evs hevs
    rcases Option.map_eq_some'.mp hevs with ⟨ty, hty, rfl⟩
    constructor
    · simp only [List.countP_append]
      rw [start_value_encValue_b64, vbr_countP_encValue]
      rfl
    · simp only [List.countP_append]
      rw [start_value_countP_b64Value, vbr_countP_b64Value]
      rfl
  · intro t v i
    unfold value_dword
    constructor
    · simp only [List.countP_append]
      rw [start_value_encValue_none, vbr_countP_encValue]
      rfl
    · simp only [List.countP_append]
      rw [start_value_countP_b64Value, vbr_countP_b64Value]
      rfl
  · intro t v i
    unfold value_qword
    constructor
    · simp only [List.countP_append]
      rw [start_value_encValue_none, vbr_countP_encValue]
      rfl
    · simp only [List.countP_append]
      rw [start_value_countP_b64Value, vbr_countP_b64Value]
      rfl
  · intro t v
    unfold value_binary
    constructor
    · simp only [List.countP_append]
      rw [start_value_encValue_b64, vbr_countP_encValue]
      rfl
    · simp only [List.countP_append]
      rw [start_value_countP_b64Value, vbr_countP_b64Value]
      rfl
  · intro t v
    unfold value_none
    by_cases hl : 0 < v.len
    · rw [if_pos hl, if_pos hl]
      refine ⟨?_, ?_, ?_⟩
      · simp only [List.countP_append]
        rw [start_value_encValue_b64, vbr_countP_encValue]
        rfl
      · simp only [List.countP_append]
        rw [start_value_countP_b64Value, vbr_countP_b64Value]
        rfl
      · simp only [List.countP_append]
        rw [start_value_countP_rawValue, vbr_countP_rawValue]
        rfl
    · rw [if_neg hl, if_neg hl]
      refine ⟨?_, ?_, ?_⟩
      · simp only [List.countP_append]
        rw [start_value_encValue_b64]
        rfl
      · simp only [List.countP_append]
        rw [start_value_countP_b64Value]
        rfl
      · simp only [List.countP_append]
        rw [start_value_countP_rawValue]
        rfl
  · intro t v evs hevs
    rcases Option.map_eq_some'.mp hevs with ⟨ty, hty, rfl⟩
    by_cases hl : 0 < v.len
    · rw [if_pos hl, if_pos hl]
      refine ⟨?_, ?_, ?_⟩
      · simp only [List.countP_append]
        rw [start_value_encValue_b64, vbr_countP_encValue]
        rfl
      · simp only [List.countP_append]
        rw [start_value_countP_b64Value, vbr_countP_b64Value]
        rfl
      · simp only [List.countP_append]
        rw [start_value_countP_rawValue, vbr_countP_rawValue]
        rfl
    · rw [if_neg hl, if_neg hl]
      refine ⟨?_, ?_, ?_⟩
      · simp only [List.countP_append]
        rw [start_value_encValue_b64]
        rfl
      · simp only [List.countP_append]
        rw [start_value_countP_b64Value]
        rfl
      · simp only [List.countP_append]
        rw [start_value_countP_rawValue]
        rfl

/-- C4, witness: for a printable string value the counts of encoding and
base64-content attributes agree, and for the zero-payload `hive_t_none`
value `hv0` the `value_encoding` attribute appears without any base64
`value` attribute. -/
theorem c4_amended_witness :
    ((value_string 1 hv5 [65]).getD []).countP (isEncAttr "value_encoding") =
      ((value_string 1 hv5 [65]).getD []).countP (isB64Attr "value") ∧
    (value_none 0 hv0).countP (isEncAttr "value_encoding") = 1 ∧
    (value_none 0 hv0).countP (isB64Attr "value") = 0 := by
  obtain ⟨hname, hkey, hvs, hmulti, hinv, hdw, hqw, hbin, hnone, hother⟩ := c4_amended
  refine ⟨?_, ?_, ?_⟩
  · exact hvs 1 hv5 [65] _ rfl
  · exact (hnone 0 hv0).1
  · rw [(hnone 0 hv0).2.1]
    decide

end Hivexml
